import Mathlib

/-!
# Verification of the uhoh wizard execution engine

A shallow embedding of the wizard execution engine of the `go-go-golems/uhoh`
repository (`pkg/wizard/wizard.go`, `pkg/wizard/steps/*.go`), together with
proofs about its step-sequencing loop, state-merge contract, skip-condition
handling, callback lifecycle, navigation resolution, and the action/decision
step executors.

Go's `map[string]interface{}` is modelled as an association list
`List (String × Val)` where `Val` is a closed value universe covering the
dynamic values the engine manipulates.  Map assignment `m[k] = v` is
`stateSet`, the merge loops `for k, v := range r { m[k] = v }` are
`mergeState`.  External effects (the expression evaluator, lifecycle
callbacks, the interactive form/UI layer) are injected as explicit function
parameters, mirroring how the Go code receives them via registries.
-/

namespace Uhoh

/-- The dynamic value universe for `interface{}` values handled by the engine:
plain values, nested maps, and the `ActionCallbackResult` wrapper (by value or
by possibly-nil pointer) from `pkg/wizard/steps/action_step.go`. `vnil` is the
nil interface value. -/
inductive Val where
  | vnil : Val
  | vStr : String → Val
  | vBool : Bool → Val
  | vInt : Int → Val
  | vMap : List (String × Val) → Val
  | wrapped : Val → Bool → Val
  | wrappedPtr : Option (Val × Bool) → Val

/-- `WizardState` / step result maps: `map[string]interface{}` as an
association list (Go maps have unique keys; we carry that as a `keysNodup`
hypothesis where it matters). -/
abbrev StateMap := List (String × Val)

/-- Go map lookup `v, ok := m[k]` on the association-list model. -/
def alookup {α : Type} (s : List (String × α)) (k : String) : Option α :=
  match s with
  | [] => none
  | (k', v) :: rest => if k' = k then some v else alookup rest k

/-- Go map assignment `m[k] = v`: overwrite the entry for `k` in place, or
append a fresh entry. -/
def stateSet (s : StateMap) (k : String) (v : Val) : StateMap :=
  match s with
  | [] => [(k, v)]
  | (k', v') :: rest => if k' = k then (k, v) :: rest else (k', v') :: stateSet rest k v

/-- The merge loop `for k, v := range r { s[k] = v }` (flat overwrite). -/
def mergeState (s : StateMap) (r : StateMap) : StateMap :=
  r.foldl (fun acc p => stateSet acc p.1 p.2) s

/-- A Go map never has duplicate keys; layers coming from Go maps satisfy
this. -/
def keysNodup {α : Type} (s : List (String × α)) : Prop :=
  (s.map Prod.fst).Nodup

@[simp] theorem mergeState_nil (s : StateMap) : mergeState s [] = s := rfl

theorem mergeState_cons (s : StateMap) (k : String) (v : Val) (r : StateMap) :
    mergeState s ((k, v) :: r) = mergeState (stateSet s k v) r := rfl

@[simp] theorem alookup_stateSet_self (s : StateMap) (k : String) (v : Val) :
    alookup (stateSet s k v) k = some v := by
  induction s with
  | nil => simp [stateSet, alookup]
  | cons p rest ih =>
    obtain ⟨k', v'⟩ := p
    by_cases h : k' = k
    · simp [stateSet, alookup, h]
    · simp [stateSet, alookup, h, ih]

theorem alookup_stateSet_ne (s : StateMap) (k k' : String) (v : Val) (hne : k ≠ k') :
    alookup (stateSet s k v) k' = alookup s k' := by
  induction s with
  | nil => simp [stateSet, alookup, hne]
  | cons p rest ih =>
    obtain ⟨k0, v0⟩ := p
    by_cases h : k0 = k
    · subst h
      simp [stateSet, alookup, hne]
    · simp [stateSet, alookup, h, ih]

theorem alookup_eq_none_of_not_mem {α : Type} (s : List (String × α)) (k : String)
    (h : k ∉ s.map Prod.fst) : alookup s k = none := by
  induction s with
  | nil => rfl
  | cons p rest ih =>
    obtain ⟨k1, v1⟩ := p
    simp only [List.map_cons, List.mem_cons, not_or] at h
    have h1 : k1 ≠ k := fun he => h.1 he.symm
    simp [alookup, h1, ih h.2]

/-- Flat merge semantics on lookups: a key found in the (duplicate-free) new
layer wins wholesale; otherwise the old layer's binding is untouched. -/
theorem alookup_mergeState (s r : StateMap) (k : String) (h : keysNodup r) :
    alookup (mergeState s r) k =
      match alookup r k with
      | some v => some v
      | none => alookup s k := by
  induction r generalizing s with
  | nil => simp [alookup]
  | cons p rest ih =>
    obtain ⟨k1, v1⟩ := p
    have hnd : keysNodup rest := by
      simpa [keysNodup] using (List.nodup_cons.mp h).2
    have hk1 : k1 ∉ rest.map Prod.fst := by
      simpa [keysNodup] using (List.nodup_cons.mp h).1
    rw [mergeState_cons, ih _ hnd]
    by_cases hk : k1 = k
    · subst hk
      have : alookup rest k1 = none := alookup_eq_none_of_not_mem rest k1 hk1
      simp [alookup, this]
    · simp [alookup, hk, alookup_stateSet_ne s k1 k v1 hk]

/-! ## Engine data model (`pkg/wizard/wizard.go`, `pkg/wizard/steps/step.go`) -/

/-- Classified outcome of a step executor's returned `error`:
`steps.ErrUserAborted`, `steps.ErrStepNotImplemented`, or any other error
(carrying its message).  `errors.Is` against the two sentinels becomes a
constructor match. -/
inductive StepError where
  | userAborted : StepError
  | stepNotImplemented : StepError
  | other : String → StepError

/-- The triple returned by a lifecycle callback (`WizardCallbackFunc`):
`(result, nextStepID *string, err)`. -/
structure CallbackReturn where
  result : Option Val
  nextStepID : Option String
  err : Option String

/-- One engine-facing step: the `BaseStep` metadata the `Run` loop reads
(`ID()`, `SkipCondition()`, the four callback names) plus its `Execute`
behaviour for this run, as a function of the state it is handed.  The Go
executor returns `(map[string]interface{}, error)`; both components are kept
(`Run` inspects the error first and may discard the map). -/
structure EngineStep where
  id : String
  skipCondition : String
  beforeCallback : String
  afterCallback : String
  validationCallback : String
  navigationCallback : String
  exec : StateMap → Option StateMap × Option StepError

/-- The `Wizard` struct fields that `Run` reads: the ordered step list, the
two pre-seeded state layers (`GlobalState` from YAML and the load-time
`initialState` bound via `WithInitialState`), the lifecycle-callback registry,
and the expression evaluator (the `expr` package plus registered
`exprFunctions`, abstracted as a function). -/
structure WizardM where
  name : String
  steps : List EngineStep
  globalState : StateMap
  initialStateYAML : StateMap
  callbacks : String → Option (StateMap → CallbackReturn)
  evalExpr : String → StateMap → Except String Bool

/-- Observable events of one run, for stating visit-order / never-invoked
properties.  The engine itself does not compute these; they instrument the
loop without altering its data flow. -/
inductive Event where
  | skipped : Nat → String → Event
  | beforeCb : String → String → Event
  | executed : Nat → String → Event
  | afterCb : String → String → Event
  | validationCb : String → String → Event
  | navigationCb : String → String → Event
deriving DecidableEq

/-- The error component of `Run`'s return value, structured: the user-abort
sentinel is returned as-is, every other failure is wrapped with the
step/callback context the Go code puts into the message. -/
inductive RunError where
  | userAborted : RunError
  | beforeCallbackFailed : String → String → String → RunError
  | execFailed : Nat → String → String → RunError
  | afterCallbackFailed : String → String → String → RunError
  | validationCallbackFailed : String → String → String → RunError
  | navigationCallbackFailed : String → String → String → RunError
  | navTargetNotFound : String → String → RunError

/-- Result of one loop body: either `Run` returns (`halt`, with the state and
the error value, `none` meaning nil), or control continues at the computed
next step index with the possibly-updated state. -/
inductive BodyOut where
  | halt : StateMap → Option RunError → BodyOut
  | next : Nat → StateMap → BodyOut

/-- `Wizard.evaluateExprCondition`: an empty condition is `false` without
consulting the evaluator; otherwise the evaluator's verdict or error is
passed through. -/
def evaluateExprCondition (w : WizardM) (condition : String) (st : StateMap) :
    Except String Bool :=
  if condition = "" then .ok false
  else w.evalExpr condition st

/-- The skip-condition block at the top of the loop: only a non-empty
`skipCondition` is evaluated; an evaluation error is logged and the step is
NOT skipped (fail-open); otherwise the boolean verdict decides. -/
def checkSkip (w : WizardM) (step : EngineStep) (st : StateMap) : Bool :=
  if step.skipCondition ≠ "" then
    match evaluateExprCondition w step.skipCondition st with
    | .error _ => false
    | .ok skip => skip
  else false

/-- Lifecycle-callback lookup shared by the before/after/validation/navigation
blocks: an empty name means no callback; an unregistered name is a warning and
the engine proceeds; a registered callback is invoked with the given state.
`some ret` exactly when the callback was invoked. -/
def invokeLifecycle (w : WizardM) (name : String) (st : StateMap) :
    Option CallbackReturn :=
  if name = "" then none
  else
    match w.callbacks name with
    | none => none
    | some cb => some (cb st)

/-- The navigation-logic block: a non-empty override id is resolved by linear
scan over all steps (`findIdx?`); a miss is the fatal
`navigation callback requested jump to non-existent step ID` error; with no
override, linear progression `currentStepIndex + 1`. -/
def navLogic (w : WizardM) (idx : Nat) (st : StateMap) (step : EngineStep)
    (evs : List Event) (override : String) : List Event × BodyOut :=
  if override ≠ "" then
    match w.steps.findIdx? (fun s => s.id == override) with
    | none => (evs, .halt st (some (.navTargetNotFound override step.id)))
    | some j => (evs, .next j st)
  else (evs, .next (idx + 1) st)

/-- Navigation-callback block: invoked against the post-merge state; a
callback error is fatal; a non-nil `nextStepID` pointer becomes the override
(a pointer to `""` leaves the default flow). -/
def stepBodyNav (w : WizardM) (idx : Nat) (st : StateMap) (step : EngineStep)
    (evs : List Event) : List Event × BodyOut :=
  match invokeLifecycle w step.navigationCallback st with
  | some ret =>
    let evs := evs ++ [.navigationCb step.navigationCallback step.id]
    match ret.err with
    | some m =>
      (evs, .halt st (some (.navigationCallbackFailed step.navigationCallback step.id m)))
    | none =>
      let override := match ret.nextStepID with
        | some s => s
        | none => ""
      navLogic w idx st step evs override
  | none => navLogic w idx st step evs ""

/-- Validation-callback block: invoked against the post-merge state; a
non-nil error is fatal. -/
def stepBodyValidate (w : WizardM) (idx : Nat) (st : StateMap) (step : EngineStep)
    (evs : List Event) : List Event × BodyOut :=
  match invokeLifecycle w step.validationCallback st with
  | some ret =>
    let evs := evs ++ [.validationCb step.validationCallback step.id]
    match ret.err with
    | some m =>
      (evs, .halt st (some (.validationCallbackFailed step.validationCallback step.id m)))
    | none => stepBodyNav w idx st step evs
  | none => stepBodyNav w idx st step evs

/-- State-merge block: every key of a non-nil step result is written into the
wizard state with flat overwrite; then validation runs against the merged
state. -/
def stepBodyMerge (w : WizardM) (idx : Nat) (st : StateMap) (step : EngineStep)
    (evs : List Event) (stepResult : Option StateMap) : List Event × BodyOut :=
  let st := match stepResult with
    | some r => mergeState st r
    | none => st
  stepBodyValidate w idx st step evs

/-- After-callback block: invoked against the state BEFORE the step's result
is merged; a non-nil error is fatal (so the result never reaches the state). -/
def stepBodyAfter (w : WizardM) (idx : Nat) (st : StateMap) (step : EngineStep)
    (evs : List Event) (stepResult : Option StateMap) : List Event × BodyOut :=
  match invokeLifecycle w step.afterCallback st with
  | some ret =>
    let evs := evs ++ [.afterCb step.afterCallback step.id]
    match ret.err with
    | some m =>
      (evs, .halt st (some (.afterCallbackFailed step.afterCallback step.id m)))
    | none => stepBodyMerge w idx st step evs stepResult
  | none => stepBodyMerge w idx st step evs stepResult

/-- Execute block: run the step executor against the current state and
classify its error: `ErrUserAborted` returns immediately with the accumulated
state and the sentinel; `ErrStepNotImplemented` is a warning and the result is
replaced by an EMPTY map so the loop continues; any other error halts with the
wrapped `error executing step` context. -/
def stepBodyExec (w : WizardM) (idx : Nat) (st : StateMap) (step : EngineStep)
    (evs : List Event) : List Event × BodyOut :=
  let res := step.exec st
  let evs := evs ++ [.executed idx step.id]
  match res.2 with
  | some .userAborted => (evs, .halt st (some .userAborted))
  | some .stepNotImplemented => stepBodyAfter w idx st step evs (some [])
  | some (.other m) => (evs, .halt st (some (.execFailed idx step.id m)))
  | none => stepBodyAfter w idx st step evs res.1

/-- The full loop body after the skip check: before-callback (fatal on
error), execute, after-callback, merge, validation-callback, navigation. -/
def stepBody (w : WizardM) (idx : Nat) (st : StateMap) (step : EngineStep) :
    List Event × BodyOut :=
  match invokeLifecycle w step.beforeCallback st with
  | some ret =>
    let evs : List Event := [.beforeCb step.beforeCallback step.id]
    match ret.err with
    | some m =>
      (evs, .halt st (some (.beforeCallbackFailed step.beforeCallback step.id m)))
    | none => stepBodyExec w idx st step evs
  | none => stepBodyExec w idx st step []

/-- The `for currentStepIndex < len(w.Steps)` loop of `Wizard.Run`, with an
explicit fuel bound (the Go loop can run forever under a navigation callback
that jumps backwards; `none` marks fuel exhaustion, which never happens in the
linear cases proved below).  Returns the final state, the error value of
`Run` (`none` = nil), and the event trace. -/
def runLoop (w : WizardM) :
    Nat → Nat → StateMap → List Event → Option (StateMap × Option RunError × List Event)
  | 0, idx, st, tr =>
    if idx < w.steps.length then none else some (st, none, tr)
  | fuel + 1, idx, st, tr =>
    if h : idx < w.steps.length then
      let step := w.steps[idx]
      if checkSkip w step st then
        runLoop w fuel (idx + 1) st (tr ++ [.skipped idx step.id])
      else
        match stepBody w idx st step with
        | (evs, .halt st2 e) => some (st2, e, tr ++ evs)
        | (evs, .next j st2) => runLoop w fuel j st2 (tr ++ evs)
    else some (st, none, tr)

/-- Repackaging of the non-skip arm of the loop: execute the body at `idx` and
either return or continue.  `runLoop` at positive fuel with the skip check
false equals this (see `runLoop_succ_enter`). -/
def runBody (w : WizardM) (fuel idx : Nat) (st : StateMap) (tr : List Event)
    (step : EngineStep) : Option (StateMap × Option RunError × List Event) :=
  match stepBody w idx st step with
  | (evs, .halt st2 e) => some (st2, e, tr ++ evs)
  | (evs, .next j st2) => runLoop w fuel j st2 (tr ++ evs)

/-- The state-initialization prologue of `Run`: start empty, then merge (flat
overwrite, each guarded by a non-emptiness check) `GlobalState`, the load-time
`initialState`, and finally the `initialState` argument — increasing
precedence. -/
def initWizardState (w : WizardM) (initialState : StateMap) : StateMap :=
  let s0 : StateMap := []
  let s1 := if 0 < w.globalState.length then mergeState s0 w.globalState else s0
  let s2 := if 0 < w.initialStateYAML.length then mergeState s1 w.initialStateYAML else s1
  let s3 := if 0 < initialState.length then mergeState s2 initialState else s2
  s3

/-- `Wizard.Run(ctx, initialState)`: initialize the state, then drive the loop
from index 0. -/
def WizardM.run (w : WizardM) (fuel : Nat) (initialState : StateMap) :
    Option (StateMap × Option RunError × List Event) :=
  runLoop w fuel 0 (initWizardState w initialState) []

/-! ## DecisionStep executor (`pkg/wizard/steps/decision_step.go`) -/

/-- The YAML-visible fields of `DecisionStep` beyond `BaseStep`, plus the
`BaseStep.NextStep` field its executor mutates. -/
structure DecisionStep where
  id : String
  title : String
  description : String
  nextStep : String
  targetKey : String
  choices : List String
  nextStepMap : List (String × String)

/-- Outcome of the interactive select form (`huh`): the user picked a value,
aborted, or the form failed. -/
inductive DecisionUI where
  | chosen : String → DecisionUI
  | aborted : DecisionUI
  | failed : String → DecisionUI

/-- `DecisionStep.Execute`: requires at least one choice; runs the select
form; maps `huh.ErrUserAborted` to the abort sentinel; on a choice, the result
map is `{TargetKey: chosenValue}` and, when `NextStepMap` has an entry for the
choice, the step's own `NextStep` field is mutated to that target (returned
here as the second component — the engine never reads it). -/
def decisionStepExecute (ds : DecisionStep) (ui : DecisionUI) :
    (Option StateMap × Option StepError) × String :=
  if ds.choices.length = 0 then
    ((none, some (.other "decision step has no choices defined")), ds.nextStep)
  else
    match ui with
    | .aborted => ((none, some .userAborted), ds.nextStep)
    | .failed m => ((none, some (.other ("error running decision form: " ++ m))), ds.nextStep)
    | .chosen chosenValue =>
      let stepResult : StateMap := [(ds.targetKey, .vStr chosenValue)]
      let nextStep :=
        match alookup ds.nextStepMap chosenValue with
        | some ns => ns
        | none => ds.nextStep
      ((some stepResult, none), nextStep)

/-! ## ActionStep executor (`pkg/wizard/steps/action_step.go`) -/

/-- The reserved map key by which an action callback's plain-map result can
signal that it handled the UI itself. -/
def uiHandledKey : String := "_uhoh_ui_handled"

/-- The nil-interface check `actionResult != nil`. -/
def Val.isNil : Val → Bool
  | .vnil => true
  | _ => false

/-- `interpretActionResult`: unwrap an `ActionCallbackResult` (by value or
pointer, a nil pointer counting as no result); for a plain map, a `bool`
under the reserved key is stripped out of a copied map and becomes the
`uiHandled` flag; anything else is passed through with `uiHandled = false`. -/
def interpretActionResult (result : Val) : Val × Bool :=
  match result with
  | .vnil => (.vnil, false)
  | .wrapped data ui => (data, ui)
  | .wrappedPtr none => (.vnil, false)
  | .wrappedPtr (some (data, ui)) => (data, ui)
  | .vMap m =>
    match alookup m uiHandledKey with
    | some (.vBool handled) =>
      (.vMap (m.filter (fun p => p.1 ≠ uiHandledKey)), handled)
    | _ => (.vMap m, false)
  | v => (v, false)

/-- `boolValue`: dereference an optional flag with a default. -/
def boolValue (v : Option Bool) (d : Bool) : Bool :=
  match v with
  | none => d
  | some b => b

/-- The YAML-visible fields of `ActionStep` beyond `BaseStep`. -/
structure ActionStep where
  id : String
  actionType : String
  functionName : String
  arguments : StateMap
  outputKey : String
  showProgress : Option Bool
  showComplete : Option Bool

/-- Outcome of running the completion note (`confirmation.Run()`). -/
inductive UIErr where
  | userAborted : UIErr
  | other : String → UIErr

/-- The placeholder result synthesized when no callback registry is attached
(simulation mode). -/
def simulatedActionResult (as : ActionStep) : Val :=
  .vMap [("simulated", .vBool true),
         ("function", .vStr as.functionName),
         ("message", .vStr ("Simulated result from " ++ as.functionName
            ++ " (no registry available)"))]

/-- Outcome of `ActionStep.Execute`: the returned `(map, error)` pair plus
whether the step showed its own completion note (the observable that
`uiHandled` suppresses). -/
structure ActionExecOutcome where
  result : Option StateMap
  err : Option StepError
  completionShown : Bool

/-- The tail of `ActionStep.Execute` after the action result is obtained:
store a non-nil result under a non-empty `OutputKey`; show the completion note
unless `show_completion` is off or the callback handled the UI, mapping an
abort of the note to the abort sentinel. -/
def actionStepFinish (as : ActionStep) (showCompletion : Bool) (actionResult : Val)
    (uiHandled : Bool) (completionRun : Option UIErr) : ActionExecOutcome :=
  let stepResult : StateMap :=
    if as.outputKey ≠ "" ∧ Val.isNil actionResult = false then
      [(as.outputKey, actionResult)]
    else []
  if showCompletion ∧ uiHandled = false then
    match completionRun with
    | some .userAborted => ⟨none, some .userAborted, true⟩
    | some (.other m) =>
      ⟨none, some (.other ("error showing completion message: " ++ m)), true⟩
    | none => ⟨some stepResult, none, true⟩
  else ⟨some stepResult, none, false⟩

/-- `ActionStep.Execute` as a function of this run's external inputs: the
callback invocation's raw `(result, error)` when a registry is attached
(`none` = simulation mode), and the completion note's behaviour.  Only
`action_type == "function"` with a non-empty `function_name` is supported; a
registry error aborts with the wrapped message; the transient progress note
has no effect on the returned data and is not modelled. -/
def actionStepExecute (as : ActionStep) (registryResult : Option (Val × Option String))
    (completionRun : Option UIErr) : ActionExecOutcome :=
  if as.actionType ≠ "function" then
    ⟨none, some (.other ("unsupported action type: " ++ as.actionType)), false⟩
  else if as.functionName = "" then
    ⟨none, some (.other "function name not specified for function-type action"), false⟩
  else
    let showCompletion := boolValue as.showComplete true
    match registryResult with
    | some (rawResult, cbErr) =>
      let interp := interpretActionResult rawResult
      match cbErr with
      | some m =>
        ⟨none, some (.other ("error executing function " ++ as.functionName ++ ": " ++ m)),
          false⟩
      | none => actionStepFinish as showCompletion interp.1 interp.2 completionRun
    | none =>
      actionStepFinish as showCompletion (simulatedActionResult as) false completionRun

/-! ## Unfolding lemmas for the loop -/

theorem runLoop_succ_done (w : WizardM) (fuel idx : Nat) (st : StateMap) (tr : List Event)
    (h : ¬ idx < w.steps.length) :
    runLoop w (fuel + 1) idx st tr = some (st, none, tr) := by
  simp only [runLoop, dif_neg h]

theorem runLoop_zero_done (w : WizardM) (idx : Nat) (st : StateMap) (tr : List Event)
    (h : ¬ idx < w.steps.length) :
    runLoop w 0 idx st tr = some (st, none, tr) := by
  simp only [runLoop, if_neg h]

theorem runLoop_succ_skip (w : WizardM) (fuel idx : Nat) (st : StateMap) (tr : List Event)
    (h : idx < w.steps.length) (hskip : checkSkip w w.steps[idx] st = true) :
    runLoop w (fuel + 1) idx st tr =
      runLoop w fuel (idx + 1) st (tr ++ [.skipped idx w.steps[idx].id]) := by
  simp only [runLoop, dif_pos h, hskip, if_true]

theorem runLoop_succ_enter (w : WizardM) (fuel idx : Nat) (st : StateMap) (tr : List Event)
    (h : idx < w.steps.length) (hskip : checkSkip w w.steps[idx] st = false) :
    runLoop w (fuel + 1) idx st tr = runBody w fuel idx st tr w.steps[idx] := by
  simp only [runLoop, runBody, dif_pos h, hskip, Bool.false_eq_true, if_false]

@[simp] theorem invokeLifecycle_empty (w : WizardM) (st : StateMap) :
    invokeLifecycle w "" st = none := by
  simp [invokeLifecycle]

theorem stepBody_noBefore (w : WizardM) (idx : Nat) (st : StateMap) (step : EngineStep)
    (hb : step.beforeCallback = "") :
    stepBody w idx st step = stepBodyExec w idx st step [] := by
  simp [stepBody, hb]

theorem stepBodyExec_ok (w : WizardM) (idx : Nat) (st : StateMap) (step : EngineStep)
    (evs : List Event) (resOpt : Option StateMap)
    (hexec : step.exec st = (resOpt, none)) :
    stepBodyExec w idx st step evs =
      stepBodyAfter w idx st step (evs ++ [.executed idx step.id]) resOpt := by
  simp [stepBodyExec, hexec]

theorem stepBodyAfter_noAfter (w : WizardM) (idx : Nat) (st : StateMap) (step : EngineStep)
    (evs : List Event) (resOpt : Option StateMap) (ha : step.afterCallback = "") :
    stepBodyAfter w idx st step evs resOpt = stepBodyMerge w idx st step evs resOpt := by
  simp [stepBodyAfter, ha]

theorem stepBodyValidate_noValidation (w : WizardM) (idx : Nat) (st : StateMap)
    (step : EngineStep) (evs : List Event) (hv : step.validationCallback = "") :
    stepBodyValidate w idx st step evs = stepBodyNav w idx st step evs := by
  simp [stepBodyValidate, hv]

theorem stepBodyNav_noNavigation (w : WizardM) (idx : Nat) (st : StateMap)
    (step : EngineStep) (evs : List Event) (hn : step.navigationCallback = "") :
    stepBodyNav w idx st step evs = (evs, .next (idx + 1) st) := by
  simp [stepBodyNav, hn, navLogic]

/-- Composite: a step with no callbacks whose executor succeeds runs straight
through its body, merging its result and continuing linearly. -/
theorem stepBody_plain (w : WizardM) (idx : Nat) (st : StateMap) (step : EngineStep)
    (resOpt : Option StateMap)
    (hb : step.beforeCallback = "") (ha : step.afterCallback = "")
    (hv : step.validationCallback = "") (hn : step.navigationCallback = "")
    (hexec : step.exec st = (resOpt, none)) :
    stepBody w idx st step =
      ([.executed idx step.id],
        .next (idx + 1) (mergeState st (resOpt.getD []))) := by
  rw [stepBody_noBefore w idx st step hb, stepBodyExec_ok w idx st step [] resOpt hexec,
    stepBodyAfter_noAfter w idx st step _ resOpt ha]
  cases resOpt with
  | none =>
    simp [stepBodyMerge, stepBodyValidate_noValidation w idx st step _ hv,
      stepBodyNav_noNavigation w idx st step _ hn]
  | some r =>
    simp [stepBodyMerge, stepBodyValidate_noValidation w idx _ step _ hv,
      stepBodyNav_noNavigation w idx _ step _ hn]

/-! ## C1: linear wizards -/

/-- The left-fold of the flat merges down a list of steps, each executor
applied to the state accumulated so far. -/
def linearFold (steps : List EngineStep) (st : StateMap) : StateMap :=
  match steps with
  | [] => st
  | s :: rest => linearFold rest (mergeState st (((s.exec st).1).getD []))

/-- The visit trace of a linear run: one `executed` event per step, indices
increasing from `idx`, in list order. -/
def linearTraceFrom (steps : List EngineStep) (idx : Nat) : List Event :=
  match steps with
  | [] => []
  | s :: rest => .executed idx s.id :: linearTraceFrom rest (idx + 1)

/-- A wizard is linear when every step has no skip condition, no lifecycle
callbacks, and an executor that never returns an error. -/
def LinearSteps (w : WizardM) : Prop :=
  ∀ s ∈ w.steps, s.skipCondition = "" ∧ s.beforeCallback = "" ∧ s.afterCallback = ""
    ∧ s.validationCallback = "" ∧ s.navigationCallback = ""
    ∧ ∀ st, (s.exec st).2 = none

theorem checkSkip_of_empty (w : WizardM) (step : EngineStep) (st : StateMap)
    (h : step.skipCondition = "") : checkSkip w step st = false := by
  simp [checkSkip, h]

theorem runLoop_linear (w : WizardM) (hlin : LinearSteps w) :
    ∀ fuel idx st tr, w.steps.length ≤ idx + fuel →
      runLoop w fuel idx st tr =
        some (linearFold (w.steps.drop idx) st, none,
          tr ++ linearTraceFrom (w.steps.drop idx) idx) := by
  intro fuel
  induction fuel with
  | zero =>
    intro idx st tr hle
    have hnlt : ¬ idx < w.steps.length := by omega
    rw [runLoop_zero_done w idx st tr hnlt,
      List.drop_eq_nil_of_le (by omega : w.steps.length ≤ idx)]
    simp [linearFold, linearTraceFrom]
  | succ fuel ih =>
    intro idx st tr hle
    by_cases h : idx < w.steps.length
    · have hmem : w.steps[idx] ∈ w.steps := List.getElem_mem h
      obtain ⟨hskip, hb, ha, hv, hn, hexec⟩ := hlin _ hmem
      rw [runLoop_succ_enter w fuel idx st tr h (checkSkip_of_empty w _ st hskip)]
      have hex2 : w.steps[idx].exec st = ((w.steps[idx].exec st).1, none) := by
        have := hexec st
        exact Prod.ext rfl this
      rw [runBody, stepBody_plain w idx st w.steps[idx] (w.steps[idx].exec st).1 hb ha hv hn hex2]
      show runLoop w fuel (idx + 1) (mergeState st ((w.steps[idx].exec st).1.getD []))
        (tr ++ [Event.executed idx w.steps[idx].id]) = _
      rw [ih (idx + 1) _ _ (by omega)]
      rw [List.drop_eq_getElem_cons h]
      simp [linearFold, linearTraceFrom]
    · have hge : w.steps.length ≤ idx := by omega
      rw [runLoop_succ_done w fuel idx st tr h, List.drop_eq_nil_of_le hge]
      simp [linearFold, linearTraceFrom]

/-- C1: For every wizard whose steps have no callbacks and no skip
conditions (and whose executors succeed, so that every step yields a result
map), `Run` visits each of the N steps exactly once in list order — the trace
is exactly one `executed` event per step, indices 0,1,…,N-1 in list order —
and the final state equals the initial state left-folded with each visited
step's result map under flat key overwrite, with a nil error. -/
theorem c1_linear_visits_in_order_and_folds (w : WizardM) (hlin : LinearSteps w)
    (fuel : Nat) (hfuel : w.steps.length ≤ fuel) (initialState : StateMap) :
    WizardM.run w fuel initialState =
      some (linearFold w.steps (initWizardState w initialState), none,
        linearTraceFrom w.steps 0) := by
  have h := runLoop_linear w hlin fuel 0 (initWizardState w initialState) [] (by omega)
  simpa using h

/-! Concrete instances used by the witnesses. -/

/-- An empty callback registry. -/
def noCallbacks : String → Option (StateMap → CallbackReturn) := fun _ => none

/-- An expression evaluator that fails on every condition (never consulted
when all skip conditions are empty). -/
def failEval : String → StateMap → Except String Bool := fun _ _ => .error "no evaluator"

/-- A step with no skip condition, no callbacks, and a constant successful
result map. -/
def plainStep (i : String) (r : StateMap) : EngineStep :=
  ⟨i, "", "", "", "", "", fun _ => (some r, none)⟩

/-- A two-step linear wizard. -/
def c1w : WizardM :=
  ⟨"linear", [plainStep "one" [("a", .vInt 1)],
              plainStep "two" [("a", .vInt 2), ("b", .vBool true)]],
   [], [], noCallbacks, failEval⟩

theorem c1_witness :
    WizardM.run c1w 2 [("z", .vStr "init")] =
      some ([("z", .vStr "init"), ("a", .vInt 2), ("b", .vBool true)], none,
        [.executed 0 "one", .executed 1 "two"]) := by
  have h := c1_linear_visits_in_order_and_folds c1w
    (by
      intro s hs
      simp only [c1w, plainStep, List.mem_cons, List.not_mem_nil, or_false] at hs
      rcases hs with rfl | rfl
      · exact ⟨rfl, rfl, rfl, rfl, rfl, fun st => rfl⟩
      · exact ⟨rfl, rfl, rfl, rfl, rfl, fun st => rfl⟩)
    2 (by simp [c1w]) [("z", .vStr "init")]
  exact h.trans (by rfl)

/-! ## C2: decision-step branch routing -/

/-- The C2 scenario's decision step: choices `[x, y]`, target key `choice`,
branch map `{x: stepX, y: stepY}`. -/
def c2pick : DecisionStep :=
  ⟨"pick", "Pick", "", "", "choice", ["x", "y"], [("x", "stepX"), ("y", "stepY")]⟩

/-- The decision step wired into the engine with the user choosing `"y"`
(the engine consumes only the `(map, error)` pair; the `NextStep` side effect
is dropped, as in the Go code where nothing reads it). -/
def c2pickStep : EngineStep :=
  ⟨"pick", "", "", "", "", "", fun _ => (decisionStepExecute c2pick (.chosen "y")).1⟩

/-- The C2 wizard: the decision step followed by `stepX` and `stepY`, no
navigation callback registered. -/
def c2w : WizardM :=
  ⟨"decision", [c2pickStep,
                plainStep "stepX" [("visited_x", .vBool true)],
                plainStep "stepY" [("visited_y", .vBool true)]],
   [], [], noCallbacks, failEval⟩

/-- C2 (code evaluation at the failing input): with the user choosing `"y"`
and no navigation callback, the final state does contain `choice = "y"`, and
the decision step records `next_step = "stepY"` on itself, but the engine's
navigation logic never consults `nextStepMap` (its `TODO` in the source) and
falls through to linear progression: `stepX` executes immediately after the
decision step, before `stepY` — contradicting the claim that execution
reaches `stepY` without executing `stepX`. -/
theorem c2_code_evaluation :
    WizardM.run c2w 3 [] =
      some ([("choice", .vStr "y"), ("visited_x", .vBool true), ("visited_y", .vBool true)],
        none, [.executed 0 "pick", .executed 1 "stepX", .executed 2 "stepY"]) ∧
    (decisionStepExecute c2pick (.chosen "y")).2 = "stepY" ∧
    (decisionStepExecute c2pick (.chosen "y")).1 = (some [("choice", .vStr "y")], none) := by
  refine ⟨by rfl, by rfl, by rfl⟩

/-! ## C3: the user-abort sentinel halts the run -/

theorem stepBodyMerge_some (w : WizardM) (idx : Nat) (st : StateMap) (step : EngineStep)
    (evs : List Event) (r : StateMap) :
    stepBodyMerge w idx st step evs (some r) = stepBodyValidate w idx (mergeState st r) step evs := rfl

theorem stepBodyMerge_none (w : WizardM) (idx : Nat) (st : StateMap) (step : EngineStep)
    (evs : List Event) :
    stepBodyMerge w idx st step evs none = stepBodyValidate w idx st step evs := rfl

/-- C3: For every wizard and every step (reached with its skip check not
firing and no before callback) whose executor returns the user-abort
sentinel, `Run` terminates immediately: the returned state is the state
accumulated so far (the step's own partial result is NOT merged), the error
is the user-abort sentinel itself (distinguishable from hard failure by
constructor), and the trace ends with this step's `executed` event — no
subsequent step executes. -/
theorem c3_user_abort_halts_run (w : WizardM) (fuel idx : Nat) (st : StateMap)
    (tr : List Event) (h : idx < w.steps.length)
    (hskip : checkSkip w w.steps[idx] st = false)
    (hb : w.steps[idx].beforeCallback = "")
    (habort : (w.steps[idx].exec st).2 = some .userAborted) :
    runLoop w (fuel + 1) idx st tr =
      some (st, some RunError.userAborted, tr ++ [.executed idx w.steps[idx].id]) := by
  rw [runLoop_succ_enter w fuel idx st tr h hskip, runBody,
    stepBody_noBefore w idx st _ hb]
  simp [stepBodyExec, habort]

/-- A step whose executor returns the user-abort sentinel. -/
def abortStep (i : String) : EngineStep :=
  ⟨i, "", "", "", "", "", fun _ => (none, some .userAborted)⟩

def c3w : WizardM :=
  ⟨"abort", [abortStep "halt", plainStep "later" [("x", .vInt 9)]],
   [], [], noCallbacks, failEval⟩

theorem c3_witness :
    runLoop c3w 2 0 [("p", .vInt 0)] [] =
      some ([("p", .vInt 0)], some RunError.userAborted, [.executed 0 "halt"]) := by
  have h := c3_user_abort_halts_run c3w 1 0 [("p", .vInt 0)] []
    (by simp [c3w]) (by rfl) (by rfl) (by rfl)
  exact h.trans (by rfl)

/-! ## C4: the not-implemented sentinel continues with an empty merge -/

/-- A callback-free step whose executor reports `ErrStepNotImplemented` runs
its body to completion with the state untouched (the result is replaced by an
empty map) and linear progression. -/
theorem stepBody_notImplemented (w : WizardM) (idx : Nat) (st : StateMap)
    (step : EngineStep)
    (hb : step.beforeCallback = "") (ha : step.afterCallback = "")
    (hv : step.validationCallback = "") (hn : step.navigationCallback = "")
    (hni : (step.exec st).2 = some .stepNotImplemented) :
    stepBody w idx st step = ([.executed idx step.id], .next (idx + 1) st) := by
  rw [stepBody_noBefore w idx st step hb]
  have h1 : stepBodyExec w idx st step [] =
      stepBodyAfter w idx st step [.executed idx step.id] (some []) := by
    simp [stepBodyExec, hni]
  rw [h1, stepBodyAfter_noAfter w idx st step _ _ ha, stepBodyMerge_some,
    mergeState_nil, stepBodyValidate_noValidation w idx st step _ hv,
    stepBodyNav_noNavigation w idx st step _ hn]

/-- C4: For every step (reached, with no callbacks wired) whose executor
returns the not-implemented sentinel, `Run` does not abort: the step counts
as having succeeded with an empty result map — the state passed to the next
iteration is unchanged — and the loop continues with the next step. -/
theorem c4_not_implemented_continues (w : WizardM) (fuel idx : Nat) (st : StateMap)
    (tr : List Event) (h : idx < w.steps.length)
    (hskip : checkSkip w w.steps[idx] st = false)
    (hb : w.steps[idx].beforeCallback = "")
    (ha : w.steps[idx].afterCallback = "")
    (hv : w.steps[idx].validationCallback = "")
    (hn : w.steps[idx].navigationCallback = "")
    (hni : (w.steps[idx].exec st).2 = some .stepNotImplemented) :
    runLoop w (fuel + 1) idx st tr =
      runLoop w fuel (idx + 1) st (tr ++ [.executed idx w.steps[idx].id]) := by
  rw [runLoop_succ_enter w fuel idx st tr h hskip, runBody,
    stepBody_notImplemented w idx st _ hb ha hv hn hni]

/-- A step whose executor reports the not-implemented sentinel (as the stub
`DecisionStep` executor in the repository does). -/
def notImplStep (i : String) : EngineStep :=
  ⟨i, "", "", "", "", "", fun _ => (some [], some .stepNotImplemented)⟩

def c4w : WizardM :=
  ⟨"stubbed", [notImplStep "stub", plainStep "later" [("done", .vBool true)]],
   [], [], noCallbacks, failEval⟩

theorem c4_witness :
    runLoop c4w 2 0 [("p", .vInt 0)] [] =
      some ([("p", .vInt 0), ("done", .vBool true)], none,
        [.executed 0 "stub", .executed 1 "later"]) := by
  have h := c4_not_implemented_continues c4w 1 0 [("p", .vInt 0)] []
    (by simp [c4w]) (by rfl) (by rfl) (by rfl) (by rfl) (by rfl) (by rfl)
  exact h.trans (by rfl)

/-! ## C5: skip-condition evaluation errors fail open -/

/-- C5: For every step with a non-empty `skipCondition`, if the expression
evaluator returns an error on the current state, `Run` neither aborts nor
skips: the skip check comes out false and the loop proceeds into the step's
body — exactly the same continuation as when the condition evaluates false
(fail-open). -/
theorem c5_skip_eval_error_fail_open (w : WizardM) (fuel idx : Nat) (st : StateMap)
    (tr : List Event) (e : String) (h : idx < w.steps.length)
    (hcond : w.steps[idx].skipCondition ≠ "")
    (herr : w.evalExpr w.steps[idx].skipCondition st = .error e) :
    checkSkip w w.steps[idx] st = false ∧
    runLoop w (fuel + 1) idx st tr = runBody w fuel idx st tr w.steps[idx] := by
  have hk : checkSkip w w.steps[idx] st = false := by
    simp [checkSkip, evaluateExprCondition, hcond, herr]
  exact ⟨hk, runLoop_succ_enter w fuel idx st tr h hk⟩

/-- A step guarded by a condition the evaluator cannot evaluate. -/
def c5step : EngineStep :=
  ⟨"guarded", "state.flag == true", "", "", "", "",
   fun _ => (some [("ran", .vBool true)], none)⟩

def c5w : WizardM := ⟨"failopen", [c5step], [], [], noCallbacks, failEval⟩

theorem c5_witness :
    checkSkip c5w c5w.steps[0] [] = false ∧
    runLoop c5w 1 0 [] [] = runBody c5w 0 0 [] [] c5w.steps[0] := by
  exact c5_skip_eval_error_fail_open c5w 0 0 [] [] "no evaluator"
    (by simp [c5w]) (by simp [c5w, c5step]) (by rfl)

/-! ## C6: a true skip condition skips the whole step lifecycle -/

/-- C6: For every step whose non-empty `skipCondition` evaluates to true
against the current state, the loop advances the index by one with the state
unchanged, emitting only a `skipped` event: the executor is never invoked and
none of the step's before/after/validation/navigation callbacks run for this
encounter. -/
theorem c6_skip_true_never_executes (w : WizardM) (fuel idx : Nat) (st : StateMap)
    (tr : List Event) (h : idx < w.steps.length)
    (hcond : w.steps[idx].skipCondition ≠ "")
    (heval : w.evalExpr w.steps[idx].skipCondition st = .ok true) :
    runLoop w (fuel + 1) idx st tr =
      runLoop w fuel (idx + 1) st (tr ++ [.skipped idx w.steps[idx].id]) := by
  apply runLoop_succ_skip w fuel idx st tr h
  simp [checkSkip, evaluateExprCondition, hcond, heval]

/-- A wizard whose single step has a skip condition evaluating true, with
callbacks named on the step (they must not run). -/
def c6step : EngineStep :=
  ⟨"skipme", "state.flag == true", "b", "a", "v", "n",
   fun _ => (some [("ran", .vBool true)], none)⟩

def trueEval : String → StateMap → Except String Bool := fun _ _ => .ok true

def c6w : WizardM := ⟨"skipper", [c6step], [], [], noCallbacks, trueEval⟩

theorem c6_witness :
    runLoop c6w 1 0 [("flag", .vBool true)] [] =
      some ([("flag", .vBool true)], none, [.skipped 0 "skipme"]) := by
  have h := c6_skip_true_never_executes c6w 0 0 [("flag", .vBool true)] []
    (by simp [c6w]) (by simp [c6w, c6step]) (by rfl)
  exact h.trans (by rfl)

/-! ## C7: navigation override resolution and the missing-id error -/

/-- C7: For every step (reached, with no other callbacks wired) whose
registered navigation callback returns a non-empty next-step id, the engine
resolves that id by a linear scan (`findIdx?`) over the full step list: a hit
continues the loop at the found index with the post-merge state, and a miss
makes `Run` fail immediately with the `navTargetNotFound` error carrying the
missing id (and the current step's id), returning the accumulated post-merge
state. -/
theorem c7_navigation_resolution (w : WizardM) (fuel idx : Nat) (st : StateMap)
    (tr : List Event) (r : StateMap) (cb : StateMap → CallbackReturn) (nid : String)
    (h : idx < w.steps.length)
    (hskip : checkSkip w w.steps[idx] st = false)
    (hb : w.steps[idx].beforeCallback = "")
    (ha : w.steps[idx].afterCallback = "")
    (hv : w.steps[idx].validationCallback = "")
    (hexec : w.steps[idx].exec st = (some r, none))
    (hn : w.steps[idx].navigationCallback ≠ "")
    (hcb : w.callbacks w.steps[idx].navigationCallback = some cb)
    (herr : (cb (mergeState st r)).err = none)
    (hnext : (cb (mergeState st r)).nextStepID = some nid)
    (hnid : nid ≠ "") :
    runLoop w (fuel + 1) idx st tr =
      match w.steps.findIdx? (fun s => s.id == nid) with
      | some j => runLoop w fuel j (mergeState st r)
          (tr ++ [.executed idx w.steps[idx].id,
                  .navigationCb w.steps[idx].navigationCallback w.steps[idx].id])
      | none => some (mergeState st r,
          some (.navTargetNotFound nid w.steps[idx].id),
          tr ++ [.executed idx w.steps[idx].id,
                 .navigationCb w.steps[idx].navigationCallback w.steps[idx].id]) := by
  rw [runLoop_succ_enter w fuel idx st tr h hskip, runBody,
    stepBody_noBefore w idx st _ hb, stepBodyExec_ok w idx st _ _ (some r) hexec,
    stepBodyAfter_noAfter w idx st _ _ _ ha, stepBodyMerge_some,
    stepBodyValidate_noValidation w idx _ _ _ hv]
  have hnav : stepBodyNav w idx (mergeState st r) w.steps[idx]
      [.executed idx w.steps[idx].id] =
      navLogic w idx (mergeState st r) w.steps[idx]
        [.executed idx w.steps[idx].id,
         .navigationCb w.steps[idx].navigationCallback w.steps[idx].id] nid := by
    simp [stepBodyNav, invokeLifecycle, hn, hcb, herr, hnext]
  simp only [List.nil_append]
  rw [hnav, navLogic, if_pos hnid]
  cases hfind : w.steps.findIdx? (fun s => s.id == nid) with
  | none => simp
  | some j => simp

def c7cb : StateMap → CallbackReturn := fun _ => ⟨none, some "ghost", none⟩

def c7reg : String → Option (StateMap → CallbackReturn) :=
  fun n => if n = "goGhost" then some c7cb else none

/-- A step whose navigation callback requests a jump to a step id that does
not exist in the wizard. -/
def c7step : EngineStep :=
  ⟨"s1", "", "", "", "", "goGhost", fun _ => (some [("r", .vInt 1)], none)⟩

def c7w : WizardM := ⟨"badnav", [c7step], [], [], c7reg, failEval⟩

theorem c7_witness :
    runLoop c7w 1 0 [] [] =
      some ([("r", .vInt 1)], some (.navTargetNotFound "ghost" "s1"),
        [.executed 0 "s1", .navigationCb "goGhost" "s1"]) := by
  have h := c7_navigation_resolution c7w 0 0 [] [] [("r", .vInt 1)] c7cb "ghost"
    (by simp [c7w]) (by rfl) (by rfl) (by rfl) (by rfl) (by rfl)
    (by simp [c7w, c7step]) (by rfl) (by rfl) (by rfl) (by simp)
  exact h.trans (by rfl)

/-! ## C8: initial-state layering -/

/-- The `len(...) > 0` guards in the prologue are semantic no-ops: merging an
empty layer changes nothing. -/
theorem merge_guard (s l : StateMap) :
    (if 0 < l.length then mergeState s l else s) = mergeState s l := by
  cases l with
  | nil => simp
  | cons p rest => simp

theorem alookup_merge_empty_base (g : StateMap) (k : String) (hg : keysNodup g) :
    alookup (mergeState [] g) k = alookup g k := by
  rw [alookup_mergeState [] g k hg]
  cases alookup g k <;> rfl

/-- C8: `Run` initializes `WizardState` as the flat merge, in increasing
precedence, of (a) the declared `GlobalState`, (b) the load-time bound
initial state, (c) the `initialState` argument of `Run`: for every key the
binding comes wholesale from the highest-precedence layer containing it
(whole-value overwrite, no deep merge — the winning layer's `Val` is returned
verbatim, nested maps included). -/
theorem c8_initial_state_precedence (w : WizardM) (arg : StateMap) (k : String)
    (hg : keysNodup w.globalState) (hy : keysNodup w.initialStateYAML)
    (ha : keysNodup arg) :
    alookup (initWizardState w arg) k =
      match alookup arg k with
      | some v => some v
      | none =>
        match alookup w.initialStateYAML k with
        | some v => some v
        | none => alookup w.globalState k := by
  have h1 : initWizardState w arg =
      mergeState (mergeState (mergeState [] w.globalState) w.initialStateYAML) arg := by
    simp only [initWizardState, merge_guard]
  rw [h1, alookup_mergeState _ _ _ ha]
  cases alookup arg k with
  | some v => rfl
  | none =>
    rw [alookup_mergeState _ _ _ hy]
    cases alookup w.initialStateYAML k with
    | some v => rfl
    | none => rw [alookup_merge_empty_base _ _ hg]

/-- A wizard with all three layers binding the key `shared` (to different
whole values, one of them a nested map that must not be deep-merged). -/
def c8w : WizardM :=
  ⟨"layers", [],
   [("shared", .vMap [("from", .vStr "global"), ("depth", .vInt 0)]), ("g", .vInt 1)],
   [("shared", .vMap [("from", .vStr "yaml")]), ("y", .vInt 2)],
   noCallbacks, failEval⟩

theorem c8_witness :
    alookup (initWizardState c8w [("shared", .vStr "arg"), ("a", .vInt 3)]) "shared" =
      some (.vStr "arg") ∧
    alookup (initWizardState c8w [("shared", .vStr "arg"), ("a", .vInt 3)]) "y" =
      some (.vInt 2) ∧
    alookup (initWizardState c8w [("shared", .vStr "arg"), ("a", .vInt 3)]) "g" =
      some (.vInt 1) := by
  have h1 := c8_initial_state_precedence c8w [("shared", .vStr "arg"), ("a", .vInt 3)]
    "shared" (by simp [c8w, keysNodup]) (by simp [c8w, keysNodup]) (by simp [keysNodup])
  have h2 := c8_initial_state_precedence c8w [("shared", .vStr "arg"), ("a", .vInt 3)]
    "y" (by simp [c8w, keysNodup]) (by simp [c8w, keysNodup]) (by simp [keysNodup])
  have h3 := c8_initial_state_precedence c8w [("shared", .vStr "arg"), ("a", .vInt 3)]
    "g" (by simp [c8w, keysNodup]) (by simp [c8w, keysNodup]) (by simp [keysNodup])
  refine ⟨h1.trans (by rfl), h2.trans (by rfl), h3.trans (by rfl)⟩

/-! ## C9: a failing after-callback aborts before the merge -/

/-- C9: If a step's `after` callback (invoked against the pre-merge state)
returns a non-nil error, `Run` aborts right there — before the state-merge
phase — so the executed step's result map `r` is never merged: the state
returned alongside the `afterCallbackFailed` error is exactly the state the
executor was invoked with. -/
theorem c9_after_error_prevents_merge (w : WizardM) (fuel idx : Nat) (st : StateMap)
    (tr : List Event) (r : StateMap) (cb : StateMap → CallbackReturn) (m : String)
    (h : idx < w.steps.length)
    (hskip : checkSkip w w.steps[idx] st = false)
    (hb : w.steps[idx].beforeCallback = "")
    (hexec : w.steps[idx].exec st = (some r, none))
    (ha : w.steps[idx].afterCallback ≠ "")
    (hcb : w.callbacks w.steps[idx].afterCallback = some cb)
    (hret : (cb st).err = some m) :
    runLoop w (fuel + 1) idx st tr =
      some (st,
        some (.afterCallbackFailed w.steps[idx].afterCallback w.steps[idx].id m),
        tr ++ [.executed idx w.steps[idx].id,
               .afterCb w.steps[idx].afterCallback w.steps[idx].id]) := by
  rw [runLoop_succ_enter w fuel idx st tr h hskip, runBody,
    stepBody_noBefore w idx st _ hb, stepBodyExec_ok w idx st _ _ (some r) hexec]
  simp [stepBodyAfter, invokeLifecycle, ha, hcb, hret]

def c9cb : StateMap → CallbackReturn := fun _ => ⟨none, none, some "rejected"⟩

def c9reg : String → Option (StateMap → CallbackReturn) :=
  fun n => if n = "audit" then some c9cb else none

/-- A step producing a result map, with a registered failing after
callback. -/
def c9step : EngineStep :=
  ⟨"s1", "", "", "audit", "", "", fun _ => (some [("secret", .vInt 42)], none)⟩

def c9w : WizardM := ⟨"afterfail", [c9step], [], [], c9reg, failEval⟩

theorem c9_witness :
    runLoop c9w 1 0 [("seen", .vBool true)] [] =
      some ([("seen", .vBool true)],
        some (.afterCallbackFailed "audit" "s1" "rejected"),
        [.executed 0 "s1", .afterCb "audit" "s1"]) := by
  have h := c9_after_error_prevents_merge c9w 0 0 [("seen", .vBool true)] []
    [("secret", .vInt 42)] c9cb "rejected"
    (by simp [c9w]) (by rfl) (by rfl) (by rfl) (by simp [c9w, c9step]) (by rfl) (by rfl)
  exact h.trans (by rfl)

/-! ## C10: interpreting action-callback results -/

/-- C10: For an action callback result that is a plain map carrying a boolean
under the reserved `_uhoh_ui_handled` key, `ActionStep.Execute` stores under
`output_key` a copy of that map with the reserved key removed, and shows its
own completion notice iff `show_completion` allows it AND that boolean is
false (i.e. the notice is suppressed exactly when the boolean is true).  For
any result not carrying the reserved marker, the data is stored unchanged —
`uiHandled` coming from the structured `ActionCallbackResult` wrapper when
there is one (nil pointer and nil interface yielding no data), defaulting to
false otherwise, including for a map whose reserved key is absent or holds a
non-boolean. -/
theorem c10_action_result_interpretation (as : ActionStep) (m : StateMap) (b : Bool)
    (hty : as.actionType = "function") (hfn : as.functionName ≠ "")
    (hout : as.outputKey ≠ "")
    (hmark : alookup m uiHandledKey = some (.vBool b)) :
    interpretActionResult (.vMap m) =
      (.vMap (m.filter (fun p => p.1 ≠ uiHandledKey)), b) ∧
    actionStepExecute as (some (.vMap m, none)) none =
      ⟨some [(as.outputKey, .vMap (m.filter (fun p => p.1 ≠ uiHandledKey)))], none,
        boolValue as.showComplete true && !b⟩ ∧
    (∀ d u, interpretActionResult (.wrapped d u) = (d, u)) ∧
    interpretActionResult (.wrappedPtr none) = (.vnil, false) ∧
    interpretActionResult .vnil = (.vnil, false) ∧
    (∀ m2 : StateMap, (∀ b2 : Bool, alookup m2 uiHandledKey ≠ some (.vBool b2)) →
      interpretActionResult (.vMap m2) = (.vMap m2, false)) ∧
    (∀ s, interpretActionResult (.vStr s) = (.vStr s, false)) ∧
    (∀ d u, Val.isNil d = false →
      actionStepExecute as (some (.wrapped d u, none)) none =
        ⟨some [(as.outputKey, d)], none, boolValue as.showComplete true && !u⟩) := by
  have h1 : interpretActionResult (.vMap m) =
      (.vMap (m.filter (fun p => p.1 ≠ uiHandledKey)), b) := by
    simp [interpretActionResult, hmark]
  refine ⟨h1, ?_, fun d u => rfl, rfl, rfl, ?_, fun s => rfl, ?_⟩
  · cases hb : b <;> cases hsc : boolValue as.showComplete true <;>
      simp [actionStepExecute, hty, hfn, actionStepFinish, h1, hout, hsc, hb, Val.isNil]
  · intro m2 hm2
    cases ha2 : alookup m2 uiHandledKey with
    | none => simp [interpretActionResult, ha2]
    | some v =>
      cases v with
      | vBool b2 => exact absurd ha2 (hm2 b2)
      | vnil => simp [interpretActionResult, ha2]
      | vStr s => simp [interpretActionResult, ha2]
      | vInt n => simp [interpretActionResult, ha2]
      | vMap mm => simp [interpretActionResult, ha2]
      | wrapped d u => simp [interpretActionResult, ha2]
      | wrappedPtr p => simp [interpretActionResult, ha2]
  · intro d u hd
    cases hu : u <;> cases hsc : boolValue as.showComplete true <;>
      simp [actionStepExecute, hty, hfn, actionStepFinish, interpretActionResult,
        hout, hsc, hu, hd]

/-- The C10 witness step: a function action writing to `out`, default UI
flags. -/
def c10as : ActionStep := ⟨"act", "function", "doThing", [], "out", none, none⟩

/-- A callback result map carrying the reserved marker set to true. -/
def c10m : StateMap := [("x", .vInt 1), (uiHandledKey, .vBool true)]

theorem c10_witness :
    interpretActionResult (.vMap c10m) = (.vMap [("x", .vInt 1)], true) ∧
    actionStepExecute c10as (some (.vMap c10m, none)) none =
      ⟨some [("out", .vMap [("x", .vInt 1)])], none, false⟩ := by
  have h := c10_action_result_interpretation c10as c10m true
    (by rfl) (by simp [c10as]) (by simp [c10as]) (by rfl)
  exact ⟨h.1.trans (by rfl), h.2.1.trans (by rfl)⟩

end Uhoh
